import Mathlib

/-!
Verification of the HackMate Room Presence & Membership Coordinator.

The definitions below are a shallow embedding of the repository's server-side
membership logic, transcribed from the Postgres functions in
`supabase/migrations/20251211122623_*.sql` (join_room v1, leave_room,
room_heartbeat, cleanup_inactive_participants), the join-code migration
(generate_join_code, regenerate_join_code, join_room v2 with the private-room
code gate), and the client role resolver `useRoomRole`/`useRoles`.

Rows of the `rooms` and `room_participants` tables are Lean structures; the
database is a pair of row lists.  Each SQL function becomes a pure Lean
function from the database (plus the transaction timestamp `now()` and, for
code generation, the random draws) to a result record and the updated
database.  The store-level CHECK constraint on `rooms.current_user_count`
(`>= 0 AND <= 5`) is modelled by a commit gate: a transaction whose resulting
room rows violate the constraint aborts and leaves the database unchanged.
-/

namespace HackMate

/-- Global role enum `app_role` from migration 20251214171028. -/
inductive AppRole
  | participant
  | organizer
  | judge
deriving DecidableEq, Repr

/-- Room-scoped role enum `room_role` from migration 20251214171028. -/
inductive RoomRole
  | member
  | organizer
  | judge
deriving DecidableEq, Repr

/-- A row of the `rooms` table (the columns the coordinator reads/writes). -/
structure Room where
  rid : Nat
  status : String
  current_user_count : Int
  max_participants : Int
  is_private : Bool
  join_code : String
  created_by : Nat
  updated_at : Int
deriving DecidableEq, Repr

/-- A row of the `room_participants` table. -/
structure Part where
  room_id : Nat
  user_id : Nat
  device_id : Option String
  is_active : Bool
  last_seen : Int
  room_role : RoomRole
deriving DecidableEq, Repr

/-- The membership ledger: the `rooms` and `room_participants` tables. -/
structure DB where
  rooms : List Room
  parts : List Part
deriving DecidableEq, Repr

/-- The `jsonb` object returned by the Postgres RPC functions
(`jsonb_build_object` with the keys each function actually emits). -/
structure RpcResult where
  success : Bool
  error : Option String := none
  message : Option String := none
  already_member : Option Bool := none
  join_code : Option String := none
deriving DecidableEq, Repr

/-- `WHERE room_id = p_room_id AND user_id = p_user_id` on `room_participants`. -/
def partKey (rid uid : Nat) (p : Part) : Bool :=
  p.room_id == rid && p.user_id == uid

/-- `SELECT COUNT(*) FROM room_participants WHERE room_id = rid AND is_active = true`. -/
def countActive (parts : List Part) (rid : Nat) : Nat :=
  parts.countP (fun p => p.room_id == rid && p.is_active)

/-- The per-row effect of join_room's rejoin UPDATE:
`SET is_active = true, last_seen = now(), device_id = COALESCE(p_device_id, device_id)`. -/
def reactivate (now : Int) (dev : Option String) (rid uid : Nat) (p : Part) : Part :=
  if partKey rid uid p then
    { p with is_active := true, last_seen := now,
             device_id := match dev with | some d => some d | none => p.device_id }
  else p

/-- `public.join_room(p_room_id, p_user_id, p_device_id, p_join_code)`, the
final version from migration 20251212041433 (row lock, existence and status
checks, rejoin reactivation with exact recount, private-room join-code gate,
capacity check against the cached counter, insert + increment). -/
def join_room (db : DB) (now : Int) (p_room_id p_user_id : Nat)
    (p_device_id : Option String) (p_join_code : Option String) : RpcResult × DB :=
  match db.rooms.find? (fun r => r.rid == p_room_id) with
  | none => ({ success := false, error := some "Room not found" }, db)
  | some room =>
    if room.status != "active" then
      ({ success := false, error := some "Room is not active" }, db)
    else
      match db.parts.find? (partKey p_room_id p_user_id) with
      | some _ =>
        -- User already in room: reactivate, then recompute the cached count.
        let parts := db.parts.map (reactivate now p_device_id p_room_id p_user_id)
        let rooms := db.rooms.map (fun r =>
          if r.rid == p_room_id then
            { r with current_user_count := (countActive parts p_room_id : Int) }
          else r)
        ({ success := true, message := some "Rejoined room", already_member := some true },
         { rooms := rooms, parts := parts })
      | none =>
        -- New member: join-code gate (IF v_is_private AND v_created_by != p_user_id
        -- THEN IF p_join_code IS NULL OR p_join_code != v_join_code THEN error).
        if room.is_private && room.created_by != p_user_id
            && (p_join_code.isNone || p_join_code != some room.join_code) then
          ({ success := false, error := some "Invalid join code" }, db)
        else if room.current_user_count ≥ room.max_participants then
          ({ success := false,
             error := some "Room full (5/5 members). Try another room or wait." }, db)
        else
          let parts := db.parts ++
            [{ room_id := p_room_id, user_id := p_user_id, device_id := p_device_id,
               is_active := true, last_seen := now, room_role := RoomRole.member }]
          let rooms := db.rooms.map (fun r =>
            if r.rid == p_room_id then
              { r with current_user_count := r.current_user_count + 1, updated_at := now }
            else r)
          ({ success := true, message := some "Successfully joined room",
             already_member := some false },
           { rooms := rooms, parts := parts })

/-- `public.leave_room(p_room_id, p_user_id)`: requires an active participant
row, marks it inactive, decrements the cached count with `GREATEST(0, ...)`. -/
def leave_room (db : DB) (now : Int) (p_room_id p_user_id : Nat) : RpcResult × DB :=
  if db.parts.any (fun p => partKey p_room_id p_user_id p && p.is_active) then
    let parts := db.parts.map (fun p =>
      if partKey p_room_id p_user_id p then { p with is_active := false, last_seen := now }
      else p)
    let rooms := db.rooms.map (fun r =>
      if r.rid == p_room_id then
        { r with current_user_count := max 0 (r.current_user_count - 1), updated_at := now }
      else r)
    ({ success := true, message := some "Successfully left room" },
     { rooms := rooms, parts := parts })
  else
    ({ success := false, error := some "User not in room" }, db)

/-- `public.room_heartbeat(p_room_id, p_user_id)`: refreshes `last_seen` of the
matching active row; reports "Participant not found" when no row was updated. -/
def room_heartbeat (db : DB) (now : Int) (p_room_id p_user_id : Nat) : RpcResult × DB :=
  let found := db.parts.any (fun p => partKey p_room_id p_user_id p && p.is_active)
  let parts := db.parts.map (fun p =>
    if partKey p_room_id p_user_id p && p.is_active then { p with last_seen := now } else p)
  if found then ({ success := true }, { db with parts := parts })
  else ({ success := false, error := some "Participant not found" }, { db with parts := parts })

/-- The per-row effect of the sweep's first UPDATE:
`SET is_active = false WHERE is_active = true AND last_seen < now() - interval '2 minutes'`. -/
def sweepPart (now : Int) (p : Part) : Part :=
  if p.is_active && decide (p.last_seen < now - 120) then { p with is_active := false } else p

/-- `public.cleanup_inactive_participants()`: demote stale active participants,
then recompute `current_user_count` for **every** room (the UPDATE has no
WHERE clause restricting it to touched rooms). -/
def cleanup_inactive_participants (db : DB) (now : Int) : DB :=
  let parts := db.parts.map (sweepPart now)
  { rooms := db.rooms.map (fun r =>
      { r with current_user_count := (countActive parts r.rid : Int) }),
    parts := parts }

/-- The alphabet of `generate_join_code`: 32 characters, excluding the
visually ambiguous 0/O/1/I. -/
def joinCodeChars : List Char := "ABCDEFGHJKLMNPQRSTUVWXYZ23456789".toList

/-- One loop iteration of `generate_join_code`:
`SUBSTR(chars, FLOOR(RANDOM() * LENGTH(chars) + 1)::integer, 1)`, the random
draw modelled as an index into the 32-character alphabet. -/
def joinCodeChar (i : Fin 32) : Char :=
  joinCodeChars.get (Fin.cast (by decide) i)

/-- `public.generate_join_code()`: six independent draws from the alphabet,
concatenated.  `draws` is the random source. -/
def generate_join_code (draws : Fin 6 → Fin 32) : String :=
  String.mk (List.ofFn (fun i : Fin 6 => joinCodeChar (draws i)))

/-- A valid join code: exactly 6 characters, all from the unambiguous alphabet. -/
def validJoinCode (s : String) : Prop :=
  s.length = 6 ∧ ∀ c ∈ s.toList, c ∈ joinCodeChars

instance : DecidablePred validJoinCode := fun s => by
  unfold validJoinCode; infer_instance

/-- `public.regenerate_join_code(p_room_id, p_user_id)`: creator-only; replaces
the room's join code with a freshly generated one. -/
def regenerate_join_code (db : DB) (p_room_id p_user_id : Nat)
    (draws : Fin 6 → Fin 32) : RpcResult × DB :=
  match db.rooms.find? (fun r => r.rid == p_room_id) with
  | none => ({ success := false, error := some "Room not found" }, db)
  | some room =>
    if room.created_by != p_user_id then
      ({ success := false, error := some "Only the host can regenerate the join code" }, db)
    else
      let code := generate_join_code draws
      ({ success := true, join_code := some code },
       { db with rooms := db.rooms.map (fun r =>
           if r.rid == p_room_id then { r with join_code := code } else r) })

/-- `useRoles` (unnamed client hook file): `isOrganizer = roles.includes('organizer')`. -/
def isOrganizerOf (roles : List AppRole) : Bool := roles.contains AppRole.organizer

/-- `useRoles`: `isJudge = roles.includes('judge')`. -/
def isJudgeOf (roles : List AppRole) : Bool := roles.contains AppRole.judge

/-- `useRoomRole`'s participant query: the `room_role` of the caller's active
participant row in the room, if any (`.eq('is_active', true).maybeSingle()`). -/
def fetchRoomRole (db : DB) (rid uid : Nat) : Option RoomRole :=
  (db.parts.find? (fun p => partKey rid uid p && p.is_active)).map (·.room_role)

/-- `useRoomRole`'s role resolution chain: participant row first, then global
organizer, then global judge, else no room role. -/
def resolveRoomRole (db : DB) (rid uid : Nat) (globalRoles : List AppRole) : Option RoomRole :=
  match fetchRoomRole db rid uid with
  | some r => some r
  | none =>
    if isOrganizerOf globalRoles then some RoomRole.organizer
    else if isJudgeOf globalRoles then some RoomRole.judge
    else none

/-- `canEdit = roomRole === 'member'`. -/
def canEdit (rr : Option RoomRole) : Bool := rr == some RoomRole.member

/-- `canComment = roomRole === 'organizer' || roomRole === 'member'`. -/
def canComment (rr : Option RoomRole) : Bool :=
  rr == some RoomRole.organizer || rr == some RoomRole.member

/-- `canKick = roomRole === 'organizer'`. -/
def canKick (rr : Option RoomRole) : Bool := rr == some RoomRole.organizer

/-- `isReadOnly = roomRole === 'organizer' || roomRole === 'judge'`. -/
def isReadOnly (rr : Option RoomRole) : Bool :=
  rr == some RoomRole.organizer || rr == some RoomRole.judge

/-- The CHECK constraint on `rooms.current_user_count`:
`current_user_count >= 0 AND current_user_count <= 5`. -/
def roomCheckOK (r : Room) : Bool :=
  decide (0 ≤ r.current_user_count) && decide (r.current_user_count ≤ 5)

/-- All room rows pass the CHECK constraint. -/
def dbCheckOK (db : DB) : Bool := db.rooms.all roomCheckOK

/-- One serialized coordinator transaction (the operations of spec §4.1/§4.2
that touch the ledger), tagged with its `now()` timestamp and arguments. -/
inductive Op
  | join (rid uid : Nat) (dev : Option String) (code : Option String) (now : Int)
  | leave (rid uid : Nat) (now : Int)
  | heartbeat (rid uid : Nat) (now : Int)
  | sweep (now : Int)

/-- The state transition of an operation, before constraint enforcement. -/
def rawApply (db : DB) : Op → DB
  | Op.join rid uid dev code now => (join_room db now rid uid dev code).2
  | Op.leave rid uid now => (leave_room db now rid uid).2
  | Op.heartbeat rid uid now => (room_heartbeat db now rid uid).2
  | Op.sweep now => cleanup_inactive_participants db now

/-- Store semantics of one transaction: if any written room row violates the
CHECK constraint, the whole transaction aborts and the database is unchanged. -/
def applyOp (db : DB) (op : Op) : DB :=
  let db2 := rawApply db op
  if dbCheckOK db2 then db2 else db

/-- Run a sequence of serialized transactions. -/
def runOps (db : DB) : List Op → DB
  | [] => db
  | op :: ops => runOps (applyOp db op) ops

/-- An empty room as `createRoom` produces it: status active, zero occupancy,
`max_participants = 5`, no participants. -/
def initRoom (rid creator : Nat) (priv : Bool) (code : String) : DB :=
  { rooms := [{ rid := rid, status := "active", current_user_count := 0,
                max_participants := 5, is_private := priv, join_code := code,
                created_by := creator, updated_at := 0 }],
    parts := [] }

/-- The unique constraint `room_participants_room_user_unique`: no two rows
share the same (room_id, user_id). -/
def keysUnique (parts : List Part) : Prop :=
  parts.Pairwise (fun p q => ¬(p.room_id = q.room_id ∧ p.user_id = q.user_id))

/-- The coordinator's ledger invariant for a single room `rid0` created with
the fixed capacity 5: participant keys are unique, every participant row
belongs to the room, the room is the sole row of the rooms table, and its
cached occupancy equals the exact active count, which never exceeds 5. -/
def RoomInv (rid0 : Nat) (db : DB) : Prop :=
  keysUnique db.parts ∧
  (∀ p ∈ db.parts, p.room_id = rid0) ∧
  ∃ r : Room, db.rooms = [r] ∧ r.rid = rid0 ∧ r.max_participants = 5 ∧
    r.current_user_count = (countActive db.parts rid0 : Int) ∧
    countActive db.parts rid0 ≤ 5

/-- A room whose cached occupancy (3) has drifted away from its
active-participant count (0), with no stale participant at all. -/
def driftedDB : DB :=
  { rooms := [{ rid := 1, status := "active", current_user_count := 3,
                max_participants := 5, is_private := false, join_code := "ABCDEF",
                created_by := 0, updated_at := 7 }],
    parts := [] }

/-- A room with one fresh active participant and an accurate counter. -/
def freshDB : DB :=
  { rooms := [{ rid := 1, status := "active", current_user_count := 1,
                max_participants := 5, is_private := false, join_code := "ABCDEF",
                created_by := 0, updated_at := 7 }],
    parts := [{ room_id := 1, user_id := 10, device_id := none, is_active := true,
                last_seen := 100, room_role := RoomRole.member }] }

/-- A private room with a join code, its creator not yet a participant. -/
def privDB : DB :=
  { rooms := [{ rid := 2, status := "active", current_user_count := 0,
                max_participants := 5, is_private := true, join_code := "SECRET",
                created_by := 5, updated_at := 0 }],
    parts := [] }

/-- A room owned by user 42, used for the join-code regeneration claims. -/
def regenDB : DB :=
  { rooms := [{ rid := 1, status := "active", current_user_count := 0,
                max_participants := 5, is_private := true, join_code := "XYZXYZ",
                created_by := 42, updated_at := 0 }],
    parts := [] }

/-- A degenerate random source: every draw picks alphabet index 0. -/
def zeroDraws : Fin 6 → Fin 32 := fun _ => 0

/-- A random source whose draws all pick alphabet index 1. -/
def oneDraws : Fin 6 → Fin 32 := fun _ => 1

/-! ## Helper lemmas -/

theorem room_eta (r : Room) : ({ r with current_user_count := r.current_user_count }) = r := rfl

theorem countActive_map_eq (parts : List Part) (rid : Nat) (f : Part → Part)
    (h : ∀ p ∈ parts, ((f p).room_id == rid && (f p).is_active)
          = (p.room_id == rid && p.is_active)) :
    countActive (parts.map f) rid = countActive parts rid := by
  unfold countActive
  rw [List.countP_map]
  exact List.countP_congr fun p hp => by
    simp only [Function.comp_apply, h p hp]

theorem sweepPart_room_id (now : Int) (p : Part) : (sweepPart now p).room_id = p.room_id := by
  unfold sweepPart; split <;> rfl

theorem sweepPart_user_id (now : Int) (p : Part) : (sweepPart now p).user_id = p.user_id := by
  unfold sweepPart; split <;> rfl

theorem sweepPart_idem (now : Int) (p : Part) : sweepPart now (sweepPart now p) = sweepPart now p := by
  unfold sweepPart
  by_cases h : (p.is_active && decide (p.last_seen < now - 120)) = true
  · simp [h]
  · simp [h]

theorem sweepPart_of_not_stale (now : Int) (p : Part)
    (h : p.is_active = true → ¬(p.last_seen < now - 120)) : sweepPart now p = p := by
  unfold sweepPart
  by_cases ha : p.is_active
  · simp [ha, h ha]
  · simp [ha]

/-- C6 sentence 1 helper: after the sweep's first UPDATE, stale rows are inactive. -/
theorem sweepPart_stale_inactive (now : Int) (p : Part)
    (h : (sweepPart now p).last_seen < now - 120) : (sweepPart now p).is_active = false := by
  unfold sweepPart at h ⊢
  by_cases hc : (p.is_active && decide (p.last_seen < now - 120)) = true
  · simp [hc]
  · rw [if_neg hc] at h ⊢
    cases ha : p.is_active with
    | false => rfl
    | true => exact absurd (by simp [ha, h]) hc

/-! ## C6: the sweep pass -/

/-- C6: after a single sweep pass every participant whose last-seen is older
than the 2-minute liveness threshold is inactive, every room's occupancy
equals the exact count of its active participant rows, and running the sweep
twice in a row (at the same instant) equals running it once. -/
theorem cleanup_sweep_spec (db : DB) (now : Int) :
    (∀ p ∈ (cleanup_inactive_participants db now).parts,
        p.last_seen < now - 120 → p.is_active = false) ∧
    (∀ r ∈ (cleanup_inactive_participants db now).rooms,
        r.current_user_count
          = (countActive (cleanup_inactive_participants db now).parts r.rid : Int)) ∧
    cleanup_inactive_participants (cleanup_inactive_participants db now) now
      = cleanup_inactive_participants db now := by
  refine ⟨?_, ?_, ?_⟩
  · intro p hp hlt
    simp only [cleanup_inactive_participants, List.mem_map] at hp
    obtain ⟨q, _, rfl⟩ := hp
    exact sweepPart_stale_inactive now q hlt
  · intro r hr
    simp only [cleanup_inactive_participants, List.mem_map] at hr
    obtain ⟨r0, _, rfl⟩ := hr
    rfl
  · show cleanup_inactive_participants
      ⟨(db.rooms.map _), (db.parts.map (sweepPart now))⟩ now = _
    have hparts : (db.parts.map (sweepPart now)).map (sweepPart now)
        = db.parts.map (sweepPart now) := by
      rw [List.map_map]
      exact List.map_congr_left fun p _ => sweepPart_idem now p
    simp only [cleanup_inactive_participants, hparts, List.map_map]
    rfl

/-- Witness for C6: a participant whose heartbeat stopped at time 0 is swept
out at time 200 (threshold 120). -/
theorem cleanup_sweep_spec_witness :
    ({ room_id := 1, user_id := 10, device_id := none, is_active := false, last_seen := 0,
       room_role := RoomRole.member } : Part).is_active = false :=
  (cleanup_sweep_spec
      { rooms := [],
        parts := [{ room_id := 1, user_id := 10, device_id := none, is_active := true,
                    last_seen := 0, room_role := RoomRole.member }] } 200).1
    { room_id := 1, user_id := 10, device_id := none, is_active := false, last_seen := 0,
      room_role := RoomRole.member }
    (by decide) (by decide)

/-! ## C7: sweep frame (corrected) -/

theorem cleanup_rooms_length (db : DB) (now : Int) :
    (cleanup_inactive_participants db now).rooms.length = db.rooms.length := by
  simp [cleanup_inactive_participants]

/-- C7 counterexample: a room with no stale active participant (it has no
participants at all) whose cached occupancy counter (3) has drifted from its
active count (0).  The sweep rewrites the counter of this untouched room, so
the sweep does **not** leave every stale-free room's row unchanged. -/
theorem cleanup_sweep_frame_counterexample :
    (driftedDB.parts.filter (fun p => p.room_id == 1 && p.is_active
        && decide (p.last_seen < 200 - 120))).length = 0 ∧
    (cleanup_inactive_participants driftedDB 200).rooms ≠ driftedDB.rooms := by
  decide

/-- C7 amended: for a room whose cached occupancy equals its active-participant
count and which has no active participant older than the liveness threshold,
the sweep leaves the room's row and all of its participant rows unchanged.
(The counterexample above forces the extra no-drift hypothesis: the sweep's
recount rewrites every room's counter, so a drifted counter changes even when
nothing in the room is stale.) -/
theorem cleanup_sweep_frame_amended (db : DB) (now : Int) (i : Nat) (hi : i < db.rooms.length)
    (hstale : ∀ p ∈ db.parts, p.room_id = (db.rooms.get ⟨i, hi⟩).rid →
        p.is_active = true → ¬(p.last_seen < now - 120))
    (hcount : (db.rooms.get ⟨i, hi⟩).current_user_count
        = (countActive db.parts (db.rooms.get ⟨i, hi⟩).rid : Int)) :
    (cleanup_inactive_participants db now).rooms.get
        ⟨i, by rw [cleanup_rooms_length]; exact hi⟩ = db.rooms.get ⟨i, hi⟩ ∧
    (cleanup_inactive_participants db now).parts.filter
        (fun p => p.room_id == (db.rooms.get ⟨i, hi⟩).rid)
      = db.parts.filter (fun p => p.room_id == (db.rooms.get ⟨i, hi⟩).rid) := by
  set r := db.rooms.get ⟨i, hi⟩ with hr
  have hcnt : countActive (db.parts.map (sweepPart now)) r.rid = countActive db.parts r.rid := by
    apply countActive_map_eq
    intro p hp
    by_cases hroom : p.room_id = r.rid
    · rw [sweepPart_of_not_stale now p (fun ha => hstale p hp hroom ha)]
    · have hb : (p.room_id == r.rid) = false := by simpa using hroom
      simp [sweepPart_room_id, hb]
  constructor
  · show (db.rooms.map _).get _ = r
    rw [List.get_map]
    show ({ r with current_user_count := (countActive (db.parts.map (sweepPart now)) r.rid : Int) }) = r
    rw [hcnt, ← hcount]
  · show (db.parts.map (sweepPart now)).filter _ = _
    rw [List.filter_map]
    have hpred : ∀ p ∈ db.parts,
        ((fun p => p.room_id == r.rid) ∘ sweepPart now) p = (p.room_id == r.rid) := by
      intro p _
      simp [Function.comp, sweepPart_room_id]
    rw [List.filter_congr hpred]
    have hid : (db.parts.filter (fun p => p.room_id == r.rid)).map (sweepPart now)
        = (db.parts.filter (fun p => p.room_id == r.rid)).map id := by
      apply List.map_congr_left
      intro p hp
      have hroom : p.room_id = r.rid := by
        have := List.of_mem_filter hp
        simpa using this
      exact sweepPart_of_not_stale now p (fun ha => hstale p (List.mem_of_mem_filter hp) hroom ha)
    rw [hid, List.map_id]

/-- Witness for the amended C7 on a concrete fresh room: nothing changes. -/
theorem cleanup_sweep_frame_amended_witness :
    (cleanup_inactive_participants freshDB 150).rooms.get
        ⟨0, by rw [cleanup_rooms_length]; decide⟩ = freshDB.rooms.get ⟨0, by decide⟩ ∧
    (cleanup_inactive_participants freshDB 150).parts.filter
        (fun p => p.room_id == (freshDB.rooms.get ⟨0, by decide⟩).rid)
      = freshDB.parts.filter (fun p => p.room_id == (freshDB.rooms.get ⟨0, by decide⟩).rid) :=
  cleanup_sweep_frame_amended freshDB 150 0 (by decide)
    (by decide) (by decide)

/-! ## More helper lemmas: find? through row updates -/

theorem find?_map_of_pred {α : Type} (l : List α) (f : α → α) (p : α → Bool)
    (h : ∀ a, p (f a) = p a) : (l.map f).find? p = (l.find? p).map f := by
  rw [List.find?_map]
  have hpf : (p ∘ f) = p := funext fun a => by simp [Function.comp, h]
  rw [hpf]

theorem reactivate_room_id (now : Int) (dev : Option String) (rid uid : Nat) (p : Part) :
    (reactivate now dev rid uid p).room_id = p.room_id := by
  unfold reactivate; split <;> rfl

theorem reactivate_user_id (now : Int) (dev : Option String) (rid uid : Nat) (p : Part) :
    (reactivate now dev rid uid p).user_id = p.user_id := by
  unfold reactivate; split <;> rfl

theorem reactivate_key (now : Int) (dev : Option String) (rid uid : Nat) (p : Part) :
    partKey rid uid (reactivate now dev rid uid p) = partKey rid uid p := by
  unfold partKey
  rw [reactivate_room_id, reactivate_user_id]

theorem reactivate_active_of_key (now : Int) (dev : Option String) (rid uid : Nat) (p : Part)
    (h : partKey rid uid p = true) : (reactivate now dev rid uid p).is_active = true := by
  unfold reactivate
  rw [if_pos h]

theorem reactivate_of_not_key (now : Int) (dev : Option String) (rid uid : Nat) (p : Part)
    (h : partKey rid uid p = false) : reactivate now dev rid uid p = p := by
  unfold reactivate
  rw [h]
  simp

/-! ## C5: leave -/

/-- C5: `leave_room` fails with "User not in room" exactly when no active
participant row exists for (room, identity), changing nothing; otherwise it
marks the row inactive, decrements occupancy with `GREATEST(0, ·)` and
refreshes the room timestamp. -/
theorem leave_room_spec (db : DB) (now : Int) (rid uid : Nat) :
    ((db.parts.any (fun p => partKey rid uid p && p.is_active)) = false →
      leave_room db now rid uid
        = ({ success := false, error := some "User not in room" }, db)) ∧
    ((db.parts.any (fun p => partKey rid uid p && p.is_active)) = true →
      leave_room db now rid uid
        = ({ success := true, message := some "Successfully left room" },
           { rooms := db.rooms.map (fun r =>
               if r.rid == rid then
                 { r with current_user_count := max 0 (r.current_user_count - 1),
                          updated_at := now }
               else r),
             parts := db.parts.map (fun p =>
               if partKey rid uid p then { p with is_active := false, last_seen := now }
               else p) })) := by
  constructor
  · intro h
    simp only [leave_room, h]
    rfl
  · intro h
    simp only [leave_room, h]
    rfl

/-- Witness for C5 on a concrete room: user 10 leaves `freshDB`. -/
theorem leave_room_spec_witness :
    leave_room freshDB 200 1 10
      = ({ success := true, message := some "Successfully left room" },
         { rooms := [{ rid := 1, status := "active", current_user_count := 0,
                       max_participants := 5, is_private := false, join_code := "ABCDEF",
                       created_by := 0, updated_at := 200 }],
           parts := [{ room_id := 1, user_id := 10, device_id := none, is_active := false,
                       last_seen := 200, room_role := RoomRole.member }] }) :=
  ((leave_room_spec freshDB 200 1 10).2 (by decide)).trans (by decide)

/-! ## C2: new-membership join -/

/-- C2: for a join of a new membership (no participant row exists), once the
join-code gate passes, the capacity check compares the active count (equal to
the cached counter on a drift-free state) to the room capacity: at or above
capacity the join fails with the room-full error leaving the database
unchanged; below it, an active row is inserted, occupancy is incremented and
the room timestamp is refreshed. -/
theorem join_room_new_member_spec (db : DB) (now : Int) (rid uid : Nat)
    (dev code : Option String) (room : Room)
    (hfind : db.rooms.find? (fun r => r.rid == rid) = some room)
    (hactive : room.status = "active")
    (hnew : db.parts.find? (partKey rid uid) = none)
    (hgate : (room.is_private && room.created_by != uid
        && (code.isNone || code != some room.join_code)) = false)
    (hcount : room.current_user_count = (countActive db.parts rid : Int)) :
    ((countActive db.parts rid : Int) ≥ room.max_participants →
      join_room db now rid uid dev code
        = ({ success := false,
             error := some "Room full (5/5 members). Try another room or wait." }, db)) ∧
    ((countActive db.parts rid : Int) < room.max_participants →
      join_room db now rid uid dev code
        = ({ success := true, message := some "Successfully joined room",
             already_member := some false },
           { rooms := db.rooms.map (fun r =>
               if r.rid == rid then
                 { r with current_user_count := r.current_user_count + 1, updated_at := now }
               else r),
             parts := db.parts ++
               [{ room_id := rid, user_id := uid, device_id := dev, is_active := true,
                  last_seen := now, room_role := RoomRole.member }] })) := by
  constructor
  · intro h
    simp only [join_room, hfind]
    rw [if_neg (by simp [hactive])]
    simp only [hnew]
    rw [if_neg (by simp [hgate])]
    rw [if_pos (by rw [hcount]; exact h)]
  · intro h
    simp only [join_room, hfind]
    rw [if_neg (by simp [hactive])]
    simp only [hnew]
    rw [if_neg (by simp [hgate])]
    rw [if_neg (by rw [hcount]; exact not_le.mpr h)]

/-- Witness for C2: user 11 joins `freshDB` (one active member of five). -/
theorem join_room_new_member_spec_witness :
    join_room freshDB 300 1 11 none none
      = ({ success := true, message := some "Successfully joined room",
           already_member := some false },
         { rooms := [{ rid := 1, status := "active", current_user_count := 2,
                       max_participants := 5, is_private := false, join_code := "ABCDEF",
                       created_by := 0, updated_at := 300 }],
           parts := [{ room_id := 1, user_id := 10, device_id := none, is_active := true,
                       last_seen := 100, room_role := RoomRole.member },
                     { room_id := 1, user_id := 11, device_id := none, is_active := true,
                       last_seen := 300, room_role := RoomRole.member }] }) :=
  ((join_room_new_member_spec freshDB 300 1 11 none none
      { rid := 1, status := "active", current_user_count := 1, max_participants := 5,
        is_private := false, join_code := "ABCDEF", created_by := 0, updated_at := 7 }
      (by decide) rfl (by decide) (by decide) (by decide)).2 (by decide)).trans (by decide)

/-! ## C4: private-room join-code gate -/

/-- C4: for a new membership in a private room, a non-creator must supply the
exact join code: absence or mismatch fails with "Invalid join code" and leaves
the database unchanged; an exact match passes the gate; the creator bypasses
the gate for every supplied code. -/
theorem join_room_private_code_spec (db : DB) (now : Int) (rid uid : Nat)
    (dev : Option String) (room : Room)
    (hfind : db.rooms.find? (fun r => r.rid == rid) = some room)
    (hactive : room.status = "active")
    (hnew : db.parts.find? (partKey rid uid) = none)
    (hpriv : room.is_private = true) :
    (∀ code : Option String, room.created_by ≠ uid →
        (code.isNone || code != some room.join_code) = true →
        join_room db now rid uid dev code
          = ({ success := false, error := some "Invalid join code" }, db)) ∧
    (room.created_by ≠ uid →
        (join_room db now rid uid dev (some room.join_code)).1.error
          ≠ some "Invalid join code") ∧
    (∀ code : Option String, room.created_by = uid →
        (join_room db now rid uid dev code).1.error ≠ some "Invalid join code") := by
  refine ⟨?_, ?_, ?_⟩
  · intro code hne hcode
    simp only [join_room, hfind]
    rw [if_neg (by simp [hactive])]
    simp only [hnew]
    rw [if_pos (by simp [hpriv, hcode, bne_iff_ne, hne])]
  · intro hne
    simp only [join_room, hfind]
    rw [if_neg (by simp [hactive])]
    simp only [hnew]
    rw [if_neg (by simp)]
    split
    · simp
    · simp
  · intro code hcreator
    simp only [join_room, hfind]
    rw [if_neg (by simp [hactive])]
    simp only [hnew]
    rw [if_neg (by simp [hcreator])]
    split
    · simp
    · simp

/-- Witness for C4: user 9 cannot enter `privDB` without the code. -/
theorem join_room_private_code_spec_witness :
    join_room privDB 10 2 9 none none
      = ({ success := false, error := some "Invalid join code" }, privDB) :=
  (join_room_private_code_spec privDB 10 2 9 none
    { rid := 2, status := "active", current_user_count := 0, max_participants := 5,
      is_private := true, join_code := "SECRET", created_by := 5, updated_at := 0 }
    (by decide) rfl (by decide) rfl).1 none (by decide) (by decide)

/-! ## Branch-reduction lemmas for join_room -/

theorem join_room_not_found_eq (db : DB) (now : Int) (rid uid : Nat)
    (dev code : Option String) (hfind : db.rooms.find? (fun r => r.rid == rid) = none) :
    join_room db now rid uid dev code
      = ({ success := false, error := some "Room not found" }, db) := by
  simp only [join_room, hfind]

theorem join_room_inactive_eq (db : DB) (now : Int) (rid uid : Nat)
    (dev code : Option String) (room : Room)
    (hfind : db.rooms.find? (fun r => r.rid == rid) = some room)
    (hstatus : (room.status != "active") = true) :
    join_room db now rid uid dev code
      = ({ success := false, error := some "Room is not active" }, db) := by
  simp only [join_room, hfind]
  rw [if_pos hstatus]

theorem join_room_rejoin_eq (db : DB) (now : Int) (rid uid : Nat) (dev code : Option String)
    (room : Room) (p0 : Part)
    (hfind : db.rooms.find? (fun r => r.rid == rid) = some room)
    (hactive : room.status = "active")
    (hmem : db.parts.find? (partKey rid uid) = some p0) :
    join_room db now rid uid dev code
      = ({ success := true, message := some "Rejoined room", already_member := some true },
         { rooms := db.rooms.map (fun r =>
             if r.rid == rid then
               { r with current_user_count :=
                   (countActive (db.parts.map (reactivate now dev rid uid)) rid : Int) }
             else r),
           parts := db.parts.map (reactivate now dev rid uid) }) := by
  simp only [join_room, hfind]
  rw [if_neg (by simp [hactive])]
  simp only [hmem]

theorem join_room_code_fail_eq (db : DB) (now : Int) (rid uid : Nat)
    (dev code : Option String) (room : Room)
    (hfind : db.rooms.find? (fun r => r.rid == rid) = some room)
    (hactive : room.status = "active")
    (hnew : db.parts.find? (partKey rid uid) = none)
    (hgate : (room.is_private && room.created_by != uid
        && (code.isNone || code != some room.join_code)) = true) :
    join_room db now rid uid dev code
      = ({ success := false, error := some "Invalid join code" }, db) := by
  simp only [join_room, hfind]
  rw [if_neg (by simp [hactive])]
  simp only [hnew]
  rw [if_pos hgate]

theorem join_room_full_eq (db : DB) (now : Int) (rid uid : Nat)
    (dev code : Option String) (room : Room)
    (hfind : db.rooms.find? (fun r => r.rid == rid) = some room)
    (hactive : room.status = "active")
    (hnew : db.parts.find? (partKey rid uid) = none)
    (hgate : (room.is_private && room.created_by != uid
        && (code.isNone || code != some room.join_code)) = false)
    (hfull : room.current_user_count ≥ room.max_participants) :
    join_room db now rid uid dev code
      = ({ success := false,
           error := some "Room full (5/5 members). Try another room or wait." }, db) := by
  simp only [join_room, hfind]
  rw [if_neg (by simp [hactive])]
  simp only [hnew]
  rw [if_neg (by simp [hgate])]
  rw [if_pos hfull]

theorem join_room_insert_eq (db : DB) (now : Int) (rid uid : Nat)
    (dev code : Option String) (room : Room)
    (hfind : db.rooms.find? (fun r => r.rid == rid) = some room)
    (hactive : room.status = "active")
    (hnew : db.parts.find? (partKey rid uid) = none)
    (hgate : (room.is_private && room.created_by != uid
        && (code.isNone || code != some room.join_code)) = false)
    (hroomy : ¬ room.current_user_count ≥ room.max_participants) :
    join_room db now rid uid dev code
      = ({ success := true, message := some "Successfully joined room",
           already_member := some false },
         { rooms := db.rooms.map (fun r =>
             if r.rid == rid then
               { r with current_user_count := r.current_user_count + 1, updated_at := now }
             else r),
           parts := db.parts ++
             [{ room_id := rid, user_id := uid, device_id := dev, is_active := true,
                last_seen := now, room_role := RoomRole.member }] }) := by
  simp only [join_room, hfind]
  rw [if_neg (by simp [hactive])]
  simp only [hnew]
  rw [if_neg (by simp [hgate])]
  rw [if_neg hroomy]

/-! ## C3: rejoin -/

/-- C3: a join by an identity that already has a participant row (active or
not) in an active room reactivates the row (active, refreshed last-seen,
supplied device id adopted), recomputes occupancy as the exact active count,
returns already_member = true without any capacity check, creates no second
row, and a second consecutive join changes neither the room rows (hence the
occupancy) nor the membership count. -/
theorem find?_map_room_update (rooms : List Room) (rid : Nat) (f : Room → Room)
    (hrid : ∀ r, (f r).rid = r.rid) :
    (rooms.map (fun r => if (r.rid == rid) = true then f r else r)).find?
        (fun r => r.rid == rid)
      = (rooms.find? (fun r => r.rid == rid)).map
          (fun r => if (r.rid == rid) = true then f r else r) := by
  rw [List.find?_map]
  have hcomp : ((fun r : Room => r.rid == rid)
        ∘ (fun r => if (r.rid == rid) = true then f r else r))
      = (fun r : Room => r.rid == rid) := by
    funext r
    by_cases hc : (r.rid == rid) = true
    · simp only [Function.comp_apply]
      rw [if_pos hc, hrid r]
    · simp only [Function.comp_apply]
      rw [if_neg hc]
  rw [hcomp]

theorem join_room_rejoin_spec (db : DB) (now now2 : Int) (rid uid : Nat)
    (dev dev2 code code2 : Option String) (room : Room) (p0 : Part)
    (hfind : db.rooms.find? (fun r => r.rid == rid) = some room)
    (hactive : room.status = "active")
    (hmem : db.parts.find? (partKey rid uid) = some p0) :
    (join_room db now rid uid dev code).1
      = { success := true, message := some "Rejoined room", already_member := some true } ∧
    (join_room db now rid uid dev code).2.parts
      = db.parts.map (reactivate now dev rid uid) ∧
    (join_room db now rid uid dev code).2.rooms
      = db.rooms.map (fun r =>
          if r.rid == rid then
            { r with current_user_count :=
                (countActive (db.parts.map (reactivate now dev rid uid)) rid : Int) }
          else r) ∧
    (join_room db now rid uid dev code).2.parts.length = db.parts.length ∧
    (join_room (join_room db now rid uid dev code).2 now2 rid uid dev2 code2).1.already_member
      = some true ∧
    (join_room (join_room db now rid uid dev code).2 now2 rid uid dev2 code2).2.rooms
      = (join_room db now rid uid dev code).2.rooms := by
  have h1 := join_room_rejoin_eq db now rid uid dev code room p0 hfind hactive hmem
  have hroomrid : (room.rid == rid) = true := by
    have := List.find?_some hfind
    simpa using this
  -- the room row after the first rejoin
  have hfind1 : (join_room db now rid uid dev code).2.rooms.find? (fun r => r.rid == rid)
      = some { room with current_user_count :=
          (countActive (db.parts.map (reactivate now dev rid uid)) rid : Int) } := by
    rw [h1]
    show (db.rooms.map _).find? _ = _
    rw [find?_map_room_update db.rooms rid
      (fun r => { r with current_user_count :=
          (countActive (db.parts.map (reactivate now dev rid uid)) rid : Int) })
      (fun r => rfl)]
    rw [hfind]
    show some (if (room.rid == rid) = true then _ else room) = _
    rw [if_pos hroomrid]
  have hmem1 : (join_room db now rid uid dev code).2.parts.find? (partKey rid uid)
      = some (reactivate now dev rid uid p0) := by
    rw [h1]
    show (db.parts.map _).find? _ = _
    rw [find?_map_of_pred _ _ _ (reactivate_key now dev rid uid)]
    rw [hmem]
    rfl
  have h2 := join_room_rejoin_eq (join_room db now rid uid dev code).2 now2 rid uid dev2 code2
    _ _ hfind1 hactive hmem1
  refine ⟨by rw [h1], by rw [h1], by rw [h1], by rw [h1]; simp, by rw [h2], ?_⟩
  rw [h2]
  show (join_room db now rid uid dev code).2.rooms.map _ = _
  -- the recomputed active count of the second rejoin equals that of the first
  have hcnt2 : countActive ((join_room db now rid uid dev code).2.parts.map
        (reactivate now2 dev2 rid uid)) rid
      = countActive (join_room db now rid uid dev code).2.parts rid := by
    apply countActive_map_eq
    intro p hp
    by_cases hk : partKey rid uid p = true
    · have hact : p.is_active = true := by
        rw [h1] at hp
        simp only [List.mem_map] at hp
        obtain ⟨q, _, rfl⟩ := hp
        exact reactivate_active_of_key now dev rid uid q
          (by rw [← reactivate_key now dev rid uid]; exact hk)
      have hrid : (p.room_id == rid) = true := by
        have hk' := hk
        unfold partKey at hk'
        exact ((Bool.and_eq_true _ _).mp hk').1
      have hrid2 : ((reactivate now2 dev2 rid uid p).room_id == rid) = true := by
        rw [reactivate_room_id]; exact hrid
      rw [hrid, hrid2, hact, reactivate_active_of_key now2 dev2 rid uid p hk]
    · rw [reactivate_of_not_key now2 dev2 rid uid p (Bool.not_eq_true _ ▸ hk)]
  rw [hcnt2]
  -- every room row of the first rejoin that matches rid already carries the recount
  have hcount1 : ∀ r1 ∈ (join_room db now rid uid dev code).2.rooms,
      (r1.rid == rid) = true →
      r1.current_user_count = (countActive (join_room db now rid uid dev code).2.parts rid : Int) := by
    intro r1 hr1 hc
    rw [h1] at hr1 ⊢
    simp only [List.mem_map] at hr1
    obtain ⟨r0, _, rfl⟩ := hr1
    by_cases hc0 : (r0.rid == rid) = true
    · rw [if_pos hc0]
    · rw [if_neg hc0] at hc ⊢
      exact absurd hc hc0
  conv_rhs => rw [← List.map_id ((join_room db now rid uid dev code).2.rooms)]
  apply List.map_congr_left
  intro r1 hr1
  by_cases hc : (r1.rid == rid) = true
  · rw [if_pos hc, ← hcount1 r1 hr1 hc]
    exact room_eta r1
  · rw [if_neg hc]
    rfl

/-- Witness for C3: user 10, already an active member of `freshDB`, rejoins
twice; the second join also reports membership and occupancy stays put. -/
theorem join_room_rejoin_spec_witness :
    (join_room freshDB 300 1 10 none none).1
      = { success := true, message := some "Rejoined room", already_member := some true } ∧
    (join_room (join_room freshDB 300 1 10 none none).2 301 1 10 none none).2.rooms
      = (join_room freshDB 300 1 10 none none).2.rooms :=
  ⟨(join_room_rejoin_spec freshDB 300 301 1 10 none none none none
      { rid := 1, status := "active", current_user_count := 1, max_participants := 5,
        is_private := false, join_code := "ABCDEF", created_by := 0, updated_at := 7 }
      { room_id := 1, user_id := 10, device_id := none, is_active := true,
        last_seen := 100, room_role := RoomRole.member }
      (by decide) rfl (by decide)).1,
   (join_room_rejoin_spec freshDB 300 301 1 10 none none none none
      { rid := 1, status := "active", current_user_count := 1, max_participants := 5,
        is_private := false, join_code := "ABCDEF", created_by := 0, updated_at := 7 }
      { room_id := 1, user_id := 10, device_id := none, is_active := true,
        last_seen := 100, room_role := RoomRole.member }
      (by decide) rfl (by decide)).2.2.2.2.2⟩

/-! ## C8: join-code regeneration (corrected) -/

theorem joinCodeChar_injective : Function.Injective joinCodeChar := by decide

theorem generate_join_code_injective : Function.Injective generate_join_code := by
  intro draws draws2 h
  unfold generate_join_code at h
  have hl : List.ofFn (fun i : Fin 6 => joinCodeChar (draws i))
      = List.ofFn (fun i : Fin 6 => joinCodeChar (draws2 i)) := by
    have := congrArg String.data h
    simpa using this
  have hfn := List.ofFn_inj.mp hl
  funext i
  exact joinCodeChar_injective (congrFun hfn i)

theorem generate_join_code_valid (draws : Fin 6 → Fin 32) :
    validJoinCode (generate_join_code draws) := by
  constructor
  · show (String.mk _).length = 6
    simp [String.length]
  · intro c hc
    have hc' : c ∈ List.ofFn (fun i : Fin 6 => joinCodeChar (draws i)) := hc
    rw [List.mem_ofFn] at hc'
    obtain ⟨i, rfl⟩ := hc'
    exact List.get_mem joinCodeChars _ _

/-- C8 counterexample: `regenerate_join_code` draws a fresh random code with
no retry loop and no comparison against the previous code, so two successive
creator calls whose random draws coincide return the **same** code — and the
room row ends up holding that one code after both writes — so the claim's
"two distinct valid codes" fails. -/
theorem regenerate_join_code_counterexample :
    (regenerate_join_code regenDB 1 42 zeroDraws).1.success = true ∧
    (regenerate_join_code (regenerate_join_code regenDB 1 42 zeroDraws).2 1 42 zeroDraws).1.success
      = true ∧
    (regenerate_join_code regenDB 1 42 zeroDraws).1.join_code
      = (regenerate_join_code (regenerate_join_code regenDB 1 42 zeroDraws).2 1 42
          zeroDraws).1.join_code ∧
    ((regenerate_join_code (regenerate_join_code regenDB 1 42 zeroDraws).2 1 42
        zeroDraws).2.rooms.map (fun r => r.join_code))
      = [generate_join_code zeroDraws] := by
  decide

/-- C8 amended: `regenerate_join_code` fails NotFound for a missing room and
Unauthorized for a non-creator, leaving the database unchanged; for the
creator it replaces the room row's stored join code with a fixed-length
6-character code drawn from the ambiguity-free alphabet (the full state
equation and the resulting room row are both stated), and a second creator
call again succeeds and stores the code of its own draws — the two successive
codes are distinct exactly when the underlying random draws differ (there is
no retry-on-collision in the function; cross-room uniqueness comes from the
unique index on `join_code`, which makes a colliding write fail). -/
theorem regenerate_join_code_amended (db : DB) (rid uid : Nat) (room : Room)
    (draws draws2 : Fin 6 → Fin 32) :
    (db.rooms.find? (fun r => r.rid == rid) = none →
      regenerate_join_code db rid uid draws
        = ({ success := false, error := some "Room not found" }, db)) ∧
    (db.rooms.find? (fun r => r.rid == rid) = some room → room.created_by ≠ uid →
      regenerate_join_code db rid uid draws
        = ({ success := false,
             error := some "Only the host can regenerate the join code" }, db)) ∧
    (db.rooms.find? (fun r => r.rid == rid) = some room → room.created_by = uid →
      regenerate_join_code db rid uid draws
          = ({ success := true, join_code := some (generate_join_code draws) },
             { db with rooms := db.rooms.map (fun r =>
                 if r.rid == rid then { r with join_code := generate_join_code draws }
                 else r) }) ∧
      (regenerate_join_code db rid uid draws).2.rooms.find? (fun r => r.rid == rid)
          = some { room with join_code := generate_join_code draws } ∧
      (regenerate_join_code (regenerate_join_code db rid uid draws).2 rid uid draws2).1
          = { success := true, join_code := some (generate_join_code draws2) } ∧
      (regenerate_join_code (regenerate_join_code db rid uid draws).2 rid uid
          draws2).2.rooms.find? (fun r => r.rid == rid)
          = some { room with join_code := generate_join_code draws2 } ∧
      validJoinCode (generate_join_code draws) ∧
      (draws ≠ draws2 → generate_join_code draws ≠ generate_join_code draws2)) := by
  refine ⟨?_, ?_, ?_⟩
  · intro hfind
    simp only [regenerate_join_code, hfind]
  · intro hfind hne
    simp only [regenerate_join_code, hfind]
    rw [if_pos (by simpa using hne)]
  · intro hfind hcreator
    have h1 : regenerate_join_code db rid uid draws
        = ({ success := true, join_code := some (generate_join_code draws) },
           { db with rooms := db.rooms.map (fun r =>
               if (r.rid == rid) = true then { r with join_code := generate_join_code draws }
               else r) }) := by
      simp only [regenerate_join_code, hfind]
      rw [if_neg (by simp [hcreator])]
    have hroomrid : (room.rid == rid) = true := by
      have := List.find?_some hfind
      simpa using this
    have hfind1 : (db.rooms.map (fun r =>
          if (r.rid == rid) = true then { r with join_code := generate_join_code draws }
          else r)).find? (fun r => r.rid == rid)
        = some { room with join_code := generate_join_code draws } := by
      rw [find?_map_room_update db.rooms rid
        (fun r => { r with join_code := generate_join_code draws }) (fun r => rfl)]
      rw [hfind]
      show some (if (room.rid == rid) = true then _ else room) = _
      rw [if_pos hroomrid]
    have hrow1 : (regenerate_join_code db rid uid draws).2.rooms.find? (fun r => r.rid == rid)
        = some { room with join_code := generate_join_code draws } := by
      rw [h1]
      show (db.rooms.map _).find? _ = _
      exact hfind1
    have h2 : regenerate_join_code (regenerate_join_code db rid uid draws).2 rid uid draws2
        = ({ success := true, join_code := some (generate_join_code draws2) },
           { db with rooms := (db.rooms.map (fun r =>
               if (r.rid == rid) = true then { r with join_code := generate_join_code draws }
               else r)).map (fun r =>
                 if (r.rid == rid) = true then { r with join_code := generate_join_code draws2 }
                 else r) }) := by
      rw [h1]
      simp only [regenerate_join_code, hfind1]
      rw [if_neg (by simp [hcreator])]
    have hrow2 : (regenerate_join_code (regenerate_join_code db rid uid draws).2 rid uid
          draws2).2.rooms.find? (fun r => r.rid == rid)
        = some { room with join_code := generate_join_code draws2 } := by
      rw [h2]
      show ((db.rooms.map (fun r =>
          if (r.rid == rid) = true then { r with join_code := generate_join_code draws }
          else r)).map (fun r =>
            if (r.rid == rid) = true then { r with join_code := generate_join_code draws2 }
            else r)).find? (fun r => r.rid == rid) = _
      rw [find?_map_room_update _ rid
        (fun r => { r with join_code := generate_join_code draws2 }) (fun r => rfl)]
      rw [hfind1]
      show some (if (room.rid == rid) = true then _ else _) = _
      rw [if_pos hroomrid]
    refine ⟨h1, hrow1, by rw [h2], hrow2, generate_join_code_valid draws, ?_⟩
    intro hne hcode
    exact hne (generate_join_code_injective hcode)

/-- Witness for the amended C8: creator 42 regenerates twice on `regenDB`
with differing draws; each call stores its generated code in the room row and
the two codes are distinct. -/
theorem regenerate_join_code_amended_witness :
    regenerate_join_code regenDB 1 42 zeroDraws
        = ({ success := true, join_code := some (generate_join_code zeroDraws) },
           { regenDB with rooms := regenDB.rooms.map (fun r =>
               if r.rid == 1 then { r with join_code := generate_join_code zeroDraws }
               else r) }) ∧
    (regenerate_join_code regenDB 1 42 zeroDraws).2.rooms.find? (fun r => r.rid == 1)
        = some { rid := 1, status := "active", current_user_count := 0, max_participants := 5,
                 is_private := true, join_code := generate_join_code zeroDraws,
                 created_by := 42, updated_at := 0 } ∧
    (regenerate_join_code (regenerate_join_code regenDB 1 42 zeroDraws).2 1 42 oneDraws).1
        = { success := true, join_code := some (generate_join_code oneDraws) } ∧
    (regenerate_join_code (regenerate_join_code regenDB 1 42 zeroDraws).2 1 42
        oneDraws).2.rooms.find? (fun r => r.rid == 1)
        = some { rid := 1, status := "active", current_user_count := 0, max_participants := 5,
                 is_private := true, join_code := generate_join_code oneDraws,
                 created_by := 42, updated_at := 0 } ∧
    validJoinCode (generate_join_code zeroDraws) ∧
    (zeroDraws ≠ oneDraws → generate_join_code zeroDraws ≠ generate_join_code oneDraws) :=
  (regenerate_join_code_amended regenDB 1 42
    { rid := 1, status := "active", current_user_count := 0, max_participants := 5,
      is_private := true, join_code := "XYZXYZ", created_by := 42, updated_at := 0 }
    zeroDraws oneDraws).2.2 (by decide) rfl

/-! ## C9: role resolver (corrected) -/

/-- C9 counterexample: a caller holding both the global organizer and the
global judge role, with no active participant row in the room, is resolved to
room role organizer — not judge — because `useRoomRole` checks the organizer
fallback first.  The claim's judge instance ("a caller holding a global judge
role … is assigned roomRole judge") fails at this caller. -/
theorem room_role_dual_global_counterexample :
    isJudgeOf [AppRole.organizer, AppRole.judge] = true ∧
    fetchRoomRole { rooms := [], parts := [] } 1 9 = none ∧
    resolveRoomRole { rooms := [], parts := [] } 1 9 [AppRole.organizer, AppRole.judge]
      ≠ some RoomRole.judge := by
  decide

/-- C9 amended: the four derived permissions hold exactly as characterized;
a caller with no active participant row holding the global organizer role is
resolved to room role organizer, and one holding the global judge role **and
not the organizer role** is resolved to judge (organizer takes precedence when
both are held); either way the caller is read-only, without membership. -/
theorem room_role_permissions_amended :
    (∀ rr : Option RoomRole, canEdit rr = true ↔ rr = some RoomRole.member) ∧
    (∀ rr : Option RoomRole, canComment rr = true
        ↔ (rr = some RoomRole.member ∨ rr = some RoomRole.organizer)) ∧
    (∀ rr : Option RoomRole, canKick rr = true ↔ rr = some RoomRole.organizer) ∧
    (∀ rr : Option RoomRole, isReadOnly rr = true
        ↔ (rr = some RoomRole.organizer ∨ rr = some RoomRole.judge)) ∧
    (∀ (db : DB) (rid uid : Nat) (roles : List AppRole),
      fetchRoomRole db rid uid = none → isOrganizerOf roles = true →
        resolveRoomRole db rid uid roles = some RoomRole.organizer ∧
        isReadOnly (resolveRoomRole db rid uid roles) = true) ∧
    (∀ (db : DB) (rid uid : Nat) (roles : List AppRole),
      fetchRoomRole db rid uid = none → isOrganizerOf roles = false → isJudgeOf roles = true →
        resolveRoomRole db rid uid roles = some RoomRole.judge ∧
        isReadOnly (resolveRoomRole db rid uid roles) = true) := by
  have hperm : ∀ (P : Option RoomRole → Prop) (_ : ∀ rr, Decidable (P rr)),
      P none → P (some RoomRole.member) → P (some RoomRole.organizer) →
      P (some RoomRole.judge) → ∀ rr, P rr := by
    intro P _ h0 h1 h2 h3 rr
    cases rr with
    | none => exact h0
    | some r => cases r with
      | member => exact h1
      | organizer => exact h2
      | judge => exact h3
  refine ⟨hperm _ (fun rr => by infer_instance) (by decide) (by decide) (by decide) (by decide),
    hperm _ (fun rr => by infer_instance) (by decide) (by decide) (by decide) (by decide),
    hperm _ (fun rr => by infer_instance) (by decide) (by decide) (by decide) (by decide),
    hperm _ (fun rr => by infer_instance) (by decide) (by decide) (by decide) (by decide), ?_, ?_⟩
  · intro db rid uid roles hf ho
    have hres : resolveRoomRole db rid uid roles = some RoomRole.organizer := by
      unfold resolveRoomRole
      rw [hf, if_pos ho]
    exact ⟨hres, by rw [hres]; rfl⟩
  · intro db rid uid roles hf ho hj
    have hres : resolveRoomRole db rid uid roles = some RoomRole.judge := by
      unfold resolveRoomRole
      rw [hf, if_neg (by simp [ho]), if_pos hj]
    exact ⟨hres, by rw [hres]; rfl⟩

/-- Witness for the amended C9: a pure global judge with no participant row
observes the room read-only with room role judge. -/
theorem room_role_permissions_amended_witness :
    resolveRoomRole { rooms := [], parts := [] } 1 9 [AppRole.judge] = some RoomRole.judge ∧
    isReadOnly (resolveRoomRole { rooms := [], parts := [] } 1 9 [AppRole.judge]) = true :=
  room_role_permissions_amended.2.2.2.2.2 { rooms := [], parts := [] } 1 9 [AppRole.judge]
    rfl (by decide) (by decide)

/-! ## Counting and uniqueness lemmas for the capacity invariant -/

theorem find?_singleton {α : Type} (p : α → Bool) (a : α) :
    [a].find? p = if p a = true then some a else none := by
  by_cases h : p a = true
  · simp [List.find?, h]
  · simp only [Bool.not_eq_true] at h
    simp [List.find?, h]

theorem keysUnique_map (parts : List Part) (f : Part → Part)
    (hk : ∀ p, (f p).room_id = p.room_id ∧ (f p).user_id = p.user_id)
    (h : keysUnique parts) : keysUnique (parts.map f) := by
  unfold keysUnique at *
  rw [List.pairwise_map]
  refine List.Pairwise.imp ?_ h
  intro a b hab
  rw [(hk a).1, (hk a).2, (hk b).1, (hk b).2]
  exact hab

theorem countActive_append (parts : List Part) (p : Part) (rid : Nat) :
    countActive (parts ++ [p]) rid
      = countActive parts rid + (if (p.room_id == rid && p.is_active) = true then 1 else 0) := by
  unfold countActive
  rw [List.countP_append]
  congr 1
  by_cases h : (p.room_id == rid && p.is_active) = true
  · simp [List.countP_cons, h]
  · simp only [Bool.not_eq_true] at h
    simp [List.countP_cons, h]

/-- Removing the unique active key row by the leave UPDATE drops the active
count of its room by exactly one. -/
theorem countActive_leave (parts : List Part) (now : Int) (rid uid : Nat)
    (hku : keysUnique parts)
    (hex : parts.any (fun p => partKey rid uid p && p.is_active) = true) :
    countActive parts rid
      = countActive (parts.map (fun p =>
          if partKey rid uid p then { p with is_active := false, last_seen := now }
          else p)) rid + 1 := by
  induction parts with
  | nil => simp at hex
  | cons q qs ih =>
    have hku' : keysUnique qs := (List.pairwise_cons.mp hku).2
    have hhead : ∀ b ∈ qs, ¬(q.room_id = b.room_id ∧ q.user_id = b.user_id) :=
      (List.pairwise_cons.mp hku).1
    by_cases hq : partKey rid uid q = true
    · -- the head is the (unique) key row
      have hqr : q.room_id = rid := by
        have := ((Bool.and_eq_true _ _).mp hq).1
        simpa [partKey] using this
      have hqu : q.user_id = uid := by
        have := ((Bool.and_eq_true _ _).mp hq).2
        simpa [partKey] using this
      have htail_nokey : ∀ p ∈ qs, partKey rid uid p = false := by
        intro p hp
        by_contra hcontra
        simp only [Bool.not_eq_false] at hcontra
        have hpr : p.room_id = rid := by
          have := ((Bool.and_eq_true _ _).mp hcontra).1
          simpa [partKey] using this
        have hpu : p.user_id = uid := by
          have := ((Bool.and_eq_true _ _).mp hcontra).2
          simpa [partKey] using this
        exact hhead p hp ⟨hqr.trans hpr.symm, hqu.trans hpu.symm⟩
      have hmap_tail : qs.map (fun p =>
          if partKey rid uid p then { p with is_active := false, last_seen := now } else p)
          = qs := by
        have := List.map_congr_left (l := qs)
          (f := fun p => if partKey rid uid p then
            { p with is_active := false, last_seen := now } else p) (g := id)
          (fun p hp => by simp [htail_nokey p hp])
        rw [this, List.map_id]
      by_cases hqa : q.is_active = true
      · unfold countActive
        simp only [List.map_cons, List.countP_cons]
        rw [hmap_tail]
        rw [if_pos hq]
        have hpredq : (q.room_id == rid && q.is_active) = true := by
          simp [hqr, hqa]
        rw [if_pos hpredq]
        have hpredq' : (({ q with is_active := false, last_seen := now } : Part).room_id == rid
            && ({ q with is_active := false, last_seen := now } : Part).is_active) = false := by
          simp
        rw [hpredq']
        simp
      · -- the key row is inactive: contradicts the existence of an active key row
        exfalso
        simp only [Bool.not_eq_true] at hqa
        rw [List.any_cons] at hex
        have : (partKey rid uid q && q.is_active) = false := by simp [hqa]
        rw [this] at hex
        simp only [Bool.false_or] at hex
        obtain ⟨p, hp, hpg⟩ := List.any_eq_true.mp hex
        exact (Bool.false_ne_true (htail_nokey p hp ▸
          ((Bool.and_eq_true _ _).mp hpg).1 : false = true))
    · -- the head is not the key row
      have hfq : (if partKey rid uid q then
          ({ q with is_active := false, last_seen := now } : Part) else q) = q := by
        rw [Bool.not_eq_true] at hq
        rw [hq]
        simp
      have hex' : qs.any (fun p => partKey rid uid p && p.is_active) = true := by
        rw [List.any_cons] at hex
        rw [Bool.not_eq_true] at hq
        have : (partKey rid uid q && q.is_active) = false := by simp [hq]
        rw [this] at hex
        simpa using hex
      unfold countActive at *
      simp only [List.map_cons, List.countP_cons]
      rw [hfq]
      rw [ih hku' hex']
      omega

theorem partKey_true_iff (rid uid : Nat) (p : Part) :
    partKey rid uid p = true ↔ (p.room_id = rid ∧ p.user_id = uid) := by
  simp [partKey]

theorem check_pair (r2 : Room) (rest : List Room) (parts2 : List Part)
    (hc : dbCheckOK ⟨r2 :: rest, parts2⟩ = true) :
    0 ≤ r2.current_user_count ∧ r2.current_user_count ≤ 5 := by
  simp only [dbCheckOK, List.all_cons, Bool.and_eq_true, roomCheckOK,
    decide_eq_true_eq] at hc
  exact hc.1

theorem leaveUpd_fields (now : Int) (rid uid : Nat) (p : Part) :
    ((if partKey rid uid p then ({ p with is_active := false, last_seen := now } : Part)
        else p).room_id = p.room_id)
    ∧ ((if partKey rid uid p then ({ p with is_active := false, last_seen := now } : Part)
        else p).user_id = p.user_id) := by
  split <;> exact ⟨rfl, rfl⟩

theorem hbUpd_fields (now : Int) (rid uid : Nat) (p : Part) :
    ((if (partKey rid uid p && p.is_active) = true then ({ p with last_seen := now } : Part)
        else p).room_id = p.room_id)
    ∧ ((if (partKey rid uid p && p.is_active) = true then ({ p with last_seen := now } : Part)
        else p).user_id = p.user_id)
    ∧ ((if (partKey rid uid p && p.is_active) = true then ({ p with last_seen := now } : Part)
        else p).is_active = p.is_active) := by
  split <;> exact ⟨rfl, rfl, rfl⟩

/-- The ledger invariant survives one raw transaction that passes the CHECK
constraint. -/
theorem roomInv_raw (rid0 : Nat) (db : DB) (op : Op) (h : RoomInv rid0 db)
    (hc : dbCheckOK (rawApply db op) = true) : RoomInv rid0 (rawApply db op) := by
  obtain ⟨hku, hallrid, r, hrooms, hrid, hmax, hcnt, hle⟩ := h
  cases op with
  | join rid uid dev code now =>
    show RoomInv rid0 (join_room db now rid uid dev code).2
    replace hc : dbCheckOK (join_room db now rid uid dev code).2 = true := hc
    by_cases hr : (r.rid == rid) = true
    case neg =>
      have hfind : db.rooms.find? (fun r' => r'.rid == rid) = none := by
        rw [hrooms, find?_singleton, if_neg hr]
      rw [join_room_not_found_eq db now rid uid dev code hfind]
      exact ⟨hku, hallrid, r, hrooms, hrid, hmax, hcnt, hle⟩
    case pos =>
      have hfind : db.rooms.find? (fun r' => r'.rid == rid) = some r := by
        rw [hrooms, find?_singleton, if_pos hr]
      have hridrid0 : rid = rid0 := by
        have hrr : r.rid = rid := by simpa using hr
        rw [← hrr, hrid]
      subst hridrid0
      by_cases hstat : (r.status != "active") = true
      · rw [join_room_inactive_eq db now rid uid dev code r hfind hstat]
        exact ⟨hku, hallrid, r, hrooms, hrid, hmax, hcnt, hle⟩
      · have hactive : r.status = "active" := by
          rw [Bool.not_eq_true] at hstat
          simpa using hstat
        cases hpm : db.parts.find? (partKey rid uid) with
        | some p0 =>
          rw [join_room_rejoin_eq db now rid uid dev code r p0 hfind hactive hpm] at hc ⊢
          rw [hrooms] at hc ⊢
          simp only [List.map_cons, List.map_nil] at hc ⊢
          rw [if_pos hr] at hc ⊢
          have hbound := (check_pair _ _ _ hc).2
          refine ⟨keysUnique_map _ _ (fun p =>
              ⟨reactivate_room_id now dev rid uid p, reactivate_user_id now dev rid uid p⟩) hku,
            ?_, ?_⟩
          · intro p hp
            simp only [List.mem_map] at hp
            obtain ⟨q, hq, rfl⟩ := hp
            rw [reactivate_room_id]
            exact hallrid q hq
          · refine ⟨_, rfl, hrid, hmax, rfl, ?_⟩
            show countActive (db.parts.map (reactivate now dev rid uid)) rid ≤ 5
            have hb2 : (countActive (db.parts.map (reactivate now dev rid uid)) rid : Int) ≤ 5 :=
              hbound
            exact_mod_cast hb2
        | none =>
          by_cases hgate : (r.is_private && r.created_by != uid
              && (code.isNone || code != some r.join_code)) = true
          · rw [join_room_code_fail_eq db now rid uid dev code r hfind hactive hpm hgate]
            exact ⟨hku, hallrid, r, hrooms, hrid, hmax, hcnt, hle⟩
          · rw [Bool.not_eq_true] at hgate
            by_cases hcap : r.current_user_count ≥ r.max_participants
            · rw [join_room_full_eq db now rid uid dev code r hfind hactive hpm hgate hcap]
              exact ⟨hku, hallrid, r, hrooms, hrid, hmax, hcnt, hle⟩
            · rw [join_room_insert_eq db now rid uid dev code r hfind hactive hpm hgate hcap]
              rw [hrooms]
              simp only [List.map_cons, List.map_nil]
              rw [if_pos hr]
              have hno : ∀ p ∈ db.parts, ¬(partKey rid uid p = true) :=
                fun p hp => by
                  have := List.find?_eq_none.mp hpm p hp
                  simpa using this
              have hcount2 : countActive (db.parts ++
                  [{ room_id := rid, user_id := uid, device_id := dev, is_active := true,
                     last_seen := now, room_role := RoomRole.member }]) rid
                  = countActive db.parts rid + 1 := by
                rw [countActive_append]
                rw [if_pos (by simp)]
              refine ⟨?_, ?_, ?_⟩
              · unfold keysUnique at hku ⊢
                rw [List.pairwise_append]
                refine ⟨hku, List.pairwise_singleton _ _, ?_⟩
                intro a ha b hb
                simp only [List.mem_singleton] at hb
                subst hb
                intro hab
                exact hno a ha ((partKey_true_iff rid uid a).mpr ⟨hab.1, hab.2⟩)
              · intro p hp
                rw [List.mem_append] at hp
                cases hp with
                | inl hp => exact hallrid p hp
                | inr hp =>
                  simp only [List.mem_singleton] at hp
                  subst hp
                  rfl
              · refine ⟨_, rfl, hrid, hmax, ?_, ?_⟩
                · show r.current_user_count + 1 = _
                  rw [hcnt, hcount2]
                  push_cast
                  ring
                · rw [hcount2]
                  have hlt : r.current_user_count < 5 := by
                    rw [← hmax]
                    exact lt_of_not_ge hcap
                  rw [hcnt] at hlt
                  omega
  | leave rid uid now =>
    show RoomInv rid0 (leave_room db now rid uid).2
    by_cases hex : (db.parts.any (fun p => partKey rid uid p && p.is_active)) = true
    case neg =>
      have heq : (leave_room db now rid uid).2 = db := by
        unfold leave_room
        rw [if_neg hex]
      rw [heq]
      exact ⟨hku, hallrid, r, hrooms, hrid, hmax, hcnt, hle⟩
    case pos =>
      have heq : (leave_room db now rid uid).2
          = ⟨db.rooms.map (fun r' =>
              if r'.rid == rid then
                { r' with current_user_count := max 0 (r'.current_user_count - 1),
                          updated_at := now }
              else r'),
             db.parts.map (fun p =>
              if partKey rid uid p then { p with is_active := false, last_seen := now }
              else p)⟩ := by
        unfold leave_room
        rw [if_pos hex]
      rw [heq]
      obtain ⟨p, hp, hpg⟩ := List.any_eq_true.mp hex
      have hpkey : partKey rid uid p = true := ((Bool.and_eq_true _ _).mp hpg).1
      have hridrid0 : rid = rid0 := by
        rw [← ((partKey_true_iff rid uid p).mp hpkey).1]
        exact hallrid p hp
      subst hridrid0
      have hr : (r.rid == rid) = true := by simp [hrid]
      have hdrop := countActive_leave db.parts now rid uid hku hex
      rw [hrooms]
      simp only [List.map_cons, List.map_nil]
      rw [if_pos hr]
      refine ⟨keysUnique_map _ _ (fun p' => leaveUpd_fields now rid uid p') hku, ?_, ?_⟩
      · intro p' hp'
        simp only [List.mem_map] at hp'
        obtain ⟨q, hq, rfl⟩ := hp'
        rw [(leaveUpd_fields now rid uid q).1]
        exact hallrid q hq
      · refine ⟨_, rfl, hrid, hmax, ?_, ?_⟩
        · show max 0 (r.current_user_count - 1) = _
          rw [hcnt, hdrop]
          push_cast
          rw [add_sub_cancel_right]
          exact max_eq_right (Int.ofNat_nonneg _)
        · show countActive (db.parts.map (fun p =>
              if partKey rid uid p then { p with is_active := false, last_seen := now }
              else p)) rid ≤ 5
          omega
  | heartbeat rid uid now =>
    show RoomInv rid0 (room_heartbeat db now rid uid).2
    have heq : (room_heartbeat db now rid uid).2
        = ⟨db.rooms, db.parts.map (fun p =>
            if (partKey rid uid p && p.is_active) = true then { p with last_seen := now }
            else p)⟩ := by
      simp only [room_heartbeat]
      split <;> rfl
    rw [heq]
    have hsame : countActive (db.parts.map (fun p =>
        if (partKey rid uid p && p.is_active) = true then { p with last_seen := now }
        else p)) rid0 = countActive db.parts rid0 := by
      apply countActive_map_eq
      intro p _
      rw [(hbUpd_fields now rid uid p).1, (hbUpd_fields now rid uid p).2.2]
    refine ⟨keysUnique_map _ _ (fun p =>
        ⟨(hbUpd_fields now rid uid p).1, (hbUpd_fields now rid uid p).2.1⟩) hku, ?_, ?_⟩
    · intro p' hp'
      simp only [List.mem_map] at hp'
      obtain ⟨q, hq, rfl⟩ := hp'
      rw [(hbUpd_fields now rid uid q).1]
      exact hallrid q hq
    · exact ⟨r, hrooms, hrid, hmax, by rw [hsame]; exact hcnt, by rw [hsame]; exact hle⟩
  | sweep now =>
    show RoomInv rid0 (cleanup_inactive_participants db now)
    replace hc : dbCheckOK (cleanup_inactive_participants db now) = true := hc
    unfold cleanup_inactive_participants at hc ⊢
    rw [hrooms] at hc ⊢
    simp only [List.map_cons, List.map_nil] at hc ⊢
    have hbound := (check_pair _ _ _ hc).2
    refine ⟨keysUnique_map _ _ (fun p =>
        ⟨sweepPart_room_id now p, sweepPart_user_id now p⟩) hku, ?_, ?_⟩
    · intro p' hp'
      simp only [List.mem_map] at hp'
      obtain ⟨q, hq, rfl⟩ := hp'
      rw [sweepPart_room_id]
      exact hallrid q hq
    · refine ⟨_, rfl, hrid, hmax, ?_, ?_⟩
      · show (countActive (db.parts.map (sweepPart now)) r.rid : Int) = _
        rw [hrid]
      · have : (countActive (db.parts.map (sweepPart now)) r.rid : Int) ≤ 5 := hbound
        rw [hrid] at this
        exact_mod_cast this

theorem roomInv_applyOp (rid0 : Nat) (db : DB) (op : Op) (h : RoomInv rid0 db) :
    RoomInv rid0 (applyOp db op) := by
  unfold applyOp
  by_cases hc : dbCheckOK (rawApply db op) = true
  · rw [if_pos hc]
    exact roomInv_raw rid0 db op h hc
  · rw [if_neg hc]
    exact h

theorem roomInv_runOps (rid0 : Nat) (db : DB) (ops : List Op) (h : RoomInv rid0 db) :
    RoomInv rid0 (runOps db ops) := by
  induction ops generalizing db with
  | nil => exact h
  | cons op ops ih => exact ih _ (roomInv_applyOp rid0 db op h)

theorem roomInv_init (rid creator : Nat) (priv : Bool) (code : String) :
    RoomInv rid (initRoom rid creator priv code) := by
  refine ⟨List.Pairwise.nil, by intro p hp; simp [initRoom] at hp, ?_⟩
  exact ⟨_, rfl, rfl, rfl, rfl, by simp [countActive, initRoom]⟩

/-! ## C1: occupancy never exceeds capacity -/

/-- C1: starting from an empty room of capacity 5 (the fixed policy value all
rooms are created with), any sequence of serialized join / leave / heartbeat /
sweep transactions — under the store's CHECK-constraint commit gate — keeps
the number of simultaneously active participants of every room at or below
its capacity.  In particular a rejoin of an inactive former member while the
room is full makes the recount exceed the CHECK bound, so that transaction
aborts instead of overfilling the room. -/
theorem join_leave_capacity_invariant (rid creator : Nat) (priv : Bool) (code : String)
    (ops : List Op) :
    ∀ r ∈ (runOps (initRoom rid creator priv code) ops).rooms,
      (countActive (runOps (initRoom rid creator priv code) ops).parts r.rid : Int)
        ≤ r.max_participants := by
  obtain ⟨_, _, r0, hrooms, hrid, hmax, _, hle⟩ :=
    roomInv_runOps rid (initRoom rid creator priv code) ops
      (roomInv_init rid creator priv code)
  intro r hr
  rw [hrooms, List.mem_singleton] at hr
  subst hr
  rw [hrid, hmax]
  exact_mod_cast hle

/-- Witness for C1: five members fill the room, a sixth is refused, one member
leaves and is replaced, and the former member's rejoin-while-full aborts at
the CHECK constraint — the active count ends at 5, never above. -/
theorem join_leave_capacity_invariant_witness :
    (countActive (runOps (initRoom 1 0 false "ABCDEF")
        [Op.join 1 10 none none 0, Op.join 1 11 none none 0, Op.join 1 12 none none 0,
         Op.join 1 13 none none 0, Op.join 1 14 none none 0, Op.join 1 15 none none 1,
         Op.leave 1 10 2, Op.join 1 15 none none 3, Op.join 1 10 none none 4]).parts
      ({ rid := 1, status := "active", current_user_count := 5, max_participants := 5,
         is_private := false, join_code := "ABCDEF", created_by := 0,
         updated_at := 3 } : Room).rid : Int)
      ≤ ({ rid := 1, status := "active", current_user_count := 5, max_participants := 5,
           is_private := false, join_code := "ABCDEF", created_by := 0,
           updated_at := 3 } : Room).max_participants :=
  join_leave_capacity_invariant 1 0 false "ABCDEF"
    [Op.join 1 10 none none 0, Op.join 1 11 none none 0, Op.join 1 12 none none 0,
     Op.join 1 13 none none 0, Op.join 1 14 none none 0, Op.join 1 15 none none 1,
     Op.leave 1 10 2, Op.join 1 15 none none 3, Op.join 1 10 none none 4]
    { rid := 1, status := "active", current_user_count := 5, max_participants := 5,
      is_private := false, join_code := "ABCDEF", created_by := 0, updated_at := 3 }
    (by decide)

/-! ## C10: the store-level CHECK constraint bound -/

theorem dbCheckOK_applyOp (db : DB) (op : Op) (h : dbCheckOK db = true) :
    dbCheckOK (applyOp db op) = true := by
  unfold applyOp
  by_cases hc : dbCheckOK (rawApply db op) = true
  · rw [if_pos hc]
    exact hc
  · rw [if_neg hc]
    exact h

/-- C10: under the store semantics in which a transaction violating the CHECK
constraint `current_user_count >= 0 AND current_user_count <= 5` aborts
without committing, every room row of every state reachable by join, leave,
heartbeat and sweep transactions from a state satisfying the constraint
keeps `0 ≤ current_user_count ≤ 5`. -/
theorem room_count_check_invariant (db : DB) (ops : List Op) (h : dbCheckOK db = true) :
    ∀ r ∈ (runOps db ops).rooms, 0 ≤ r.current_user_count ∧ r.current_user_count ≤ 5 := by
  have hall : dbCheckOK (runOps db ops) = true := by
    induction ops generalizing db with
    | nil => exact h
    | cons op ops ih => exact ih _ (dbCheckOK_applyOp db op h)
  intro r hr
  unfold dbCheckOK at hall
  rw [List.all_eq_true] at hall
  have hok := hall r hr
  simp only [roomCheckOK, Bool.and_eq_true, decide_eq_true_eq] at hok
  exact hok

/-- Witness for C10 after a concrete join on `freshDB`. -/
theorem room_count_check_invariant_witness :
    0 ≤ ({ rid := 1, status := "active", current_user_count := 2, max_participants := 5,
           is_private := false, join_code := "ABCDEF", created_by := 0,
           updated_at := 300 } : Room).current_user_count ∧
    ({ rid := 1, status := "active", current_user_count := 2, max_participants := 5,
       is_private := false, join_code := "ABCDEF", created_by := 0,
       updated_at := 300 } : Room).current_user_count ≤ 5 :=
  room_count_check_invariant freshDB [Op.join 1 11 none none 300] (by decide)
    { rid := 1, status := "active", current_user_count := 2, max_participants := 5,
      is_private := false, join_code := "ABCDEF", created_by := 0, updated_at := 300 }
    (by decide)

end HackMate
